import Mathlib

/-! # Login page component (`app/script/auth/page/Login.js`)

A shallow embedding of the `Login` React component: its local state, the
`handleSubmit` handler (validation loop, promise chain, navigation) and the
conditional part of `render`.

Conventions of the embedding.

* JavaScript strings are Lean strings; `indexOf` and `replace` work on the
  character list.  The only character searched for is `@` (U+0040), a single
  UTF-16 code unit that is never half of a surrogate pair, so "first
  occurrence at a position greater than 0" and "remove the first occurrence"
  read the same on code points and on code units.
* Plain objects used as dictionaries (`this.inputs`, `state.validInputs`) are
  association lists in insertion order, the order of `Object.keys`.
* Every effect of the handler on its surroundings is recorded in a `World`:
  the component state, and the argument lists of the calls to
  `props.doLogin`, `window.location.replace`, `props.history.push` and
  `event.preventDefault`.
* Modules that `Login.js` imports but that are not part of the file
  (`BackendError`, `ROUTE`, `URLUtil`, `ValidationError`, `errorUtil`,
  `RuntimeUtil`) are fields of `Env`.
* `render` is embedded as the part of its markup that depends on props and
  state; translated texts, styles and the event callbacks are left out.
-/

namespace Login

/-! ## Data model -/

/-- An error object as the component consumes it: `error.label` is the only
field the code reads; `message` stands for the rest of the object. -/
structure LabeledError where
  label : String
  message : String
  deriving DecidableEq, Repr

/-- The DOM `ValidityState` object of an input (`currentInput.validity`). -/
structure ValidityState where
  valid : Bool
  valueMissing : Bool
  typeMismatch : Bool
  patternMismatch : Bool
  tooLong : Bool
  tooShort : Bool
  rangeUnderflow : Bool
  rangeOverflow : Bool
  stepMismatch : Bool
  badInput : Bool
  customError : Bool
  deriving DecidableEq, Repr

/-- A managed input node, as far as `handleSubmit` looks at it: the result of
`currentInput.checkValidity()`, `currentInput.name` and
`currentInput.validity`.  The two readings of the native validity
(`checkValidity()` and `validity.valid`) are kept apart, as in the code. -/
structure InputNode where
  name : String
  checkValidity : Bool
  validity : ValidityState
  deriving DecidableEq, Repr

/-- A plain object with boolean values (`state.validInputs`). -/
abbrev FlagObject := List (String × Bool)

/-- The object `this.inputs`: key and node, in `Object.keys` order. -/
abbrev Inputs := List (String × InputNode)

/-- Property read `obj[key]` (`none` is `undefined`). -/
def objGet : FlagObject → String → Option Bool
  | [], _ => none
  | (k, v) :: rest, key => if k = key then some v else objGet rest key

/-- Property write `obj[key] = value`: overwrite in place when the key exists,
append the key otherwise. -/
def objSet : FlagObject → String → Bool → FlagObject
  | [], key, value => [(key, value)]
  | (k, v) :: rest, key, value =>
    if k = key then (k, value) :: rest else (k, v) :: objSet rest key value

/-- The component state (`state = {...}`, lines 56-66). -/
structure State where
  email : String
  loginError : Option LabeledError
  password : String
  persist : Bool
  validInputs : FlagObject
  validationErrors : List LabeledError
  deriving DecidableEq, Repr

/-- The initial state of the component (lines 56-66). -/
def initialState : State where
  email := ""
  loginError := none
  password := ""
  persist := true
  validInputs := [("email", true), ("password", true)]
  validationErrors := []

/-- The object handed to `doLogin` (lines 91-96).  `email` and `handle` are
properties that may be absent (`none`). -/
structure LoginData where
  password : String
  persist : Bool
  email : Option String
  handle : Option String
  deriving DecidableEq, Repr

/-- How the promise returned by `props.doLogin(login)` settles. -/
inductive Settled where
  | fulfilled
  | rejected (error : LabeledError)
  deriving DecidableEq, Repr

/-- What `handleSubmit` returns: `undefined` on the early return, otherwise a
promise, described by the way it settles. -/
inductive Returned where
  | undefined
  | resolved
  | rejected (error : LabeledError)
  deriving DecidableEq, Repr

/-- The props the handler and the error part of `render` read. -/
structure Props where
  isFetching : Bool
  loginError : Option LabeledError
  disableEmail : Bool
  doLogin : LoginData → Settled

/-- The imported collaborators of `Login.js`, with markup of type `M`. -/
structure Env (M : Type) where
  /-- The constant `BackendError.LABEL.TOO_MANY_CLIENTS`. -/
  TOO_MANY_CLIENTS : String
  /-- The route `ROUTE.CLIENTS`. -/
  ROUTE_CLIENTS : String
  /-- The helper `URLUtil.pathWithParams(path, params)`. -/
  pathWithParams : String → String → String
  /-- The factory `ValidationError.handleValidationState(name, validity)`. -/
  handleValidationState : String → ValidityState → LabeledError
  /-- The formatter `parseError(error)`. -/
  parseError : LabeledError → M
  /-- The formatter `parseValidationErrors(errors)`. -/
  parseValidationErrors : List LabeledError → M
  /-- The runtime test `RuntimeUtil.isDesktop()`. -/
  isDesktop : Bool

/-- Everything `handleSubmit` can change or call. -/
structure World where
  state : State
  doLoginCalls : List LoginData
  replaceCalls : List String
  pushCalls : List String
  preventDefaultCalls : Nat
  deriving DecidableEq, Repr

/-! ## String helpers -/

/-- Index of the first occurrence of `c` in a character list, counted from
`i`; `-1` when there is none. -/
def indexOfFrom (c : Char) : List Char → Nat → Int
  | [], _ => -1
  | x :: xs, i => if x = c then (i : Int) else indexOfFrom c xs (i + 1)

/-- The call `s.indexOf(c)` for a one-character search string. -/
def indexOf (s : String) (c : Char) : Int :=
  indexOfFrom c s.data 0

/-- Remove the first occurrence of `c` from a character list. -/
def removeFirst (c : Char) : List Char → List Char
  | [] => []
  | x :: xs => if x = c then xs else x :: removeFirst c xs

/-- The call `s.replace(c, '')` with a string pattern: only the first
occurrence is replaced. -/
def replaceWithEmpty (s : String) (c : Char) : String :=
  String.mk (removeFirst c s.data)

/-- Conversion of a boolean inside a template literal. -/
def boolToString : Bool → String
  | true => "true"
  | false => "false"

/-! ## handleSubmit -/

/-- One iteration of the loop of lines 75-81 on the pair
`(validationErrors, validInputs)`. -/
def validateStep {M : Type} (env : Env M) (acc : List LabeledError × FlagObject)
    (entry : String × InputNode) : List LabeledError × FlagObject :=
  let currentInput := entry.2
  let validationErrors :=
    if !currentInput.checkValidity then
      acc.1 ++ [env.handleValidationState currentInput.name currentInput.validity]
    else acc.1
  (validationErrors, objSet acc.2 entry.1 currentInput.validity.valid)

/-- The loop of lines 73-81: starts from an empty error array and the
`validInputs` object of the state, visits the inputs in key order. -/
def validateInputs {M : Type} (env : Env M) (inputs : Inputs) (validInputs : FlagObject) :
    List LabeledError × FlagObject :=
  inputs.foldl (validateStep env) ([], validInputs)

/-- The call `this.setState({validInputs, validationErrors})` of line 82
applied to the result of the loop. -/
def stateAfterValidation {M : Type} (env : Env M) (inputs : Inputs) (st : State) : State :=
  let r := validateInputs env inputs st.validInputs
  { st with validInputs := r.2, validationErrors := r.1 }

/-- First `then` callback (lines 84-88): throws `errors[0]` when the array is
not empty. -/
def checkErrors : List LabeledError → Except LabeledError Unit
  | [] => .ok ()
  | e :: _ => .error e

/-- Body of the second `then` callback up to the call (lines 90-96): the
login object built from the current state. -/
def buildLogin (st : State) : LoginData :=
  if indexOf st.email '@' > 0 then
    { password := st.password, persist := st.persist, email := some st.email, handle := none }
  else
    { password := st.password, persist := st.persist, email := none,
      handle := some (replaceWithEmpty st.email '@') }

/-- Argument of `window.location.replace` (line 100). -/
def redirectTarget {M : Type} (env : Env M) (st : State) : String :=
  "/" ++ env.pathWithParams "login" ("reason=login&persist=" ++ boolToString st.persist)

/-- The `catch` callback (lines 102-108). -/
def catchHandler {M : Type} (env : Env M) (w : World) (error : LabeledError) : World × Returned :=
  if error.label = env.TOO_MANY_CLIENTS then
    ({ w with pushCalls := w.pushCalls ++ [env.ROUTE_CLIENTS] }, .resolved)
  else
    (w, .rejected error)

/-- The handler `handleSubmit` (lines 68-109).  `inputs` is `this.inputs`;
`pending` is what other handlers (the `onChange` callbacks) do to the state
while the promise of `doLogin` is pending, since line 100 reads `this.state`
again after it has settled. -/
def handleSubmit {M : Type} (env : Env M) (props : Props) (pending : State → State)
    (inputs : Inputs) (w : World) : World × Returned :=
  let w0 := { w with preventDefaultCalls := w.preventDefaultCalls + 1 }
  if props.isFetching then
    (w0, .undefined)
  else
    let w1 := { w0 with state := stateAfterValidation env inputs w0.state }
    match checkErrors w1.state.validationErrors with
    | .error e => catchHandler env w1 e
    | .ok _ =>
      let login := buildLogin w1.state
      let w2 := { w1 with doLoginCalls := w1.doLoginCalls ++ [login] }
      let w3 := { w2 with state := pending w2.state }
      match props.doLogin login with
      | .rejected e => catchHandler env w3 e
      | .fulfilled =>
        ({ w3 with replaceCalls := w3.replaceCalls ++ [redirectTarget env w3.state] }, .resolved)

/-! ## render -/

/-- The conditional expression of lines 192-196 inside the form. -/
inductive ErrorRegion (M : Type) where
  | validationList (content : M)
  | backendMessage (content : M)
  | nothing
  deriving DecidableEq, Repr

/-- The properties of an `Input` element that depend on props and state. -/
structure InputView where
  name : String
  markInvalid : Bool
  disabled : Bool
  value : String
  deriving DecidableEq, Repr

/-- The part of the markup returned by `render` that depends on props and
state (lines 136-207). -/
structure View (M : Type) where
  emailInput : InputView
  passwordInput : InputView
  submitDisabled : Bool
  errorRegion : ErrorRegion M
  /-- The `checked` property of the "public computer" checkbox; `none` when
  the checkbox is not rendered. -/
  persistCheckbox : Option Bool

/-- Negation `!x` of a property that may be `undefined`. -/
def jsNot : Option Bool → Bool
  | some b => !b
  | none => true

/-- Lines 192-196. -/
def renderErrorRegion {M : Type} (env : Env M) (props : Props) (st : State) : ErrorRegion M :=
  if st.validationErrors.length ≠ 0 then
    .validationList (env.parseValidationErrors st.validationErrors)
  else
    match props.loginError with
    | some loginError => .backendMessage (env.parseError loginError)
    | none => .nothing

/-- The method `render` (lines 115-223). -/
def render {M : Type} (env : Env M) (props : Props) (st : State) : View M where
  emailInput :=
    { name := "email", markInvalid := jsNot (objGet st.validInputs "email"),
      disabled := props.disableEmail, value := st.email }
  passwordInput :=
    { name := "password", markInvalid := jsNot (objGet st.validInputs "password"),
      disabled := false, value := st.password }
  submitDisabled := st.email.isEmpty || st.password.isEmpty
  errorRegion := renderErrorRegion env props st
  persistCheckbox := if !env.isDesktop then some (!st.persist) else none

/-! ## Sample collaborators and inputs for concrete evaluation -/

/-- A sample instantiation of the imported collaborators, with strings as
markup. -/
def sampleEnv : Env String where
  TOO_MANY_CLIENTS := "too-many-clients"
  ROUTE_CLIENTS := "/clients"
  pathWithParams := fun path params => path ++ "?" ++ params
  handleValidationState := fun name validity =>
    { label := name ++ (if validity.valueMissing then "-value-missing" else "-invalid"),
      message := "" }
  parseError := fun error => "error:" ++ error.label
  parseValidationErrors := fun errors => String.intercalate "," (errors.map (fun e => e.label))
  isDesktop := false

/-- A validity state without any constraint violation. -/
def validityOk : ValidityState where
  valid := true
  valueMissing := false
  typeMismatch := false
  patternMismatch := false
  tooLong := false
  tooShort := false
  rangeUnderflow := false
  rangeOverflow := false
  stepMismatch := false
  badInput := false
  customError := false

/-- The two inputs of the form, both passing the native check. -/
def sampleInputs : Inputs :=
  [("email", { name := "email", checkValidity := true, validity := validityOk }),
   ("password", { name := "password", checkValidity := true, validity := validityOk })]

/-- The two inputs of the form with a password that is too short. -/
def sampleInputsShortPassword : Inputs :=
  [("email", { name := "email", checkValidity := true, validity := validityOk }),
   ("password", { name := "password", checkValidity := false,
                  validity := { validityOk with valid := false, tooShort := true } })]

/-- Props of an idle store whose login action settles as given. -/
def sampleProps (outcome : Settled) : Props where
  isFetching := false
  loginError := none
  disableEmail := false
  doLogin := fun _ => outcome

/-- A world with no recorded calls around the given state. -/
def freshWorld (st : State) : World where
  state := st
  doLoginCalls := []
  replaceCalls := []
  pushCalls := []
  preventDefaultCalls := 0

/-- The identifier with a leading `@` stripped, in the words of the
specification: the text after the first character when that character is
`@`, the identifier itself otherwise. -/
def stripLeadingAt (s : String) : String :=
  match s.data with
  | first :: rest => if first = '@' then String.mk rest else s
  | [] => s

/-! ## Lemmas on the string helpers -/

theorem indexOfFrom_of_not_mem (c : Char) (l : List Char) (i : Nat) (h : c ∉ l) :
    indexOfFrom c l i = -1 := by
  induction l generalizing i with
  | nil => rfl
  | cons x xs ih =>
    have hx : x ≠ c := fun e => h (by simp [e])
    have hxs : c ∉ xs := fun m => h (List.mem_cons_of_mem _ m)
    simp [indexOfFrom, hx, ih (i + 1) hxs]

theorem indexOfFrom_ge_of_mem (c : Char) (l : List Char) (i : Nat) (h : c ∈ l) :
    (i : Int) ≤ indexOfFrom c l i := by
  induction l generalizing i with
  | nil => simp at h
  | cons x xs ih =>
    by_cases hx : x = c
    · simp [indexOfFrom, hx]
    · have hxs : c ∈ xs := by
        rcases List.mem_cons.mp h with e | m
        · exact absurd e.symm hx
        · exact m
      have := ih (i + 1) hxs
      simp only [indexOfFrom, hx, if_false]
      omega

/-- The test `s.indexOf(c) > 0` holds exactly when `c` occurs in `s` and is
not its first character. -/
theorem indexOf_pos_iff (s : String) (c : Char) :
    0 < indexOf s c ↔ c ∈ s.data ∧ s.data.head? ≠ some c := by
  unfold indexOf
  cases hd : s.data with
  | nil => simp [indexOfFrom]
  | cons x xs =>
    by_cases hx : x = c
    · simp [indexOfFrom, hx]
    · by_cases hxs : c ∈ xs
      · have := indexOfFrom_ge_of_mem c xs 1 hxs
        have hpos : 0 < indexOfFrom c xs (0 + 1) := by
          simp only [Nat.zero_add]
          omega
        simp [indexOfFrom, hx, hxs, hpos]
      · have hneg := indexOfFrom_of_not_mem c xs (0 + 1) hxs
        have hc : ¬ c = x := fun e => hx e.symm
        simp [indexOfFrom, hx, hxs, hneg, hc]

theorem removeFirst_of_not_mem (c : Char) (l : List Char) (h : c ∉ l) :
    removeFirst c l = l := by
  induction l with
  | nil => rfl
  | cons x xs ih =>
    have hx : x ≠ c := fun e => h (by simp [e])
    have hxs : c ∉ xs := fun m => h (List.mem_cons_of_mem _ m)
    simp [removeFirst, hx, ih hxs]

/-! ## Lemmas on the validation loop -/

theorem objGet_objSet_same (o : FlagObject) (k : String) (v : Bool) :
    objGet (objSet o k v) k = some v := by
  induction o with
  | nil => simp [objSet, objGet]
  | cons e rest ih =>
    obtain ⟨k0, v0⟩ := e
    by_cases hk : k0 = k
    · simp [objSet, objGet, hk]
    · simp [objSet, objGet, hk, ih]

theorem objGet_objSet_ne (o : FlagObject) (k k1 : String) (v : Bool) (h : k1 ≠ k) :
    objGet (objSet o k v) k1 = objGet o k1 := by
  induction o with
  | nil =>
    have h2 : ¬ k = k1 := fun e => h e.symm
    simp [objSet, objGet, h2]
  | cons e rest ih =>
    obtain ⟨k0, v0⟩ := e
    by_cases hk : k0 = k
    · subst hk
      have h2 : ¬ k0 = k1 := fun e => h e.symm
      simp [objSet, objGet, h2]
    · by_cases hk1 : k0 = k1
      · subst hk1
        simp [objSet, objGet, hk]
      · simp [objSet, objGet, hk, hk1, ih]

/-- The loop computes the descriptors of the failing inputs, in input order,
after the errors it started with, and writes every `validity.valid` into the
flag object. -/
theorem foldl_validateStep {M : Type} (env : Env M) (inputs : Inputs)
    (errs : List LabeledError) (vi : FlagObject) :
    inputs.foldl (validateStep env) (errs, vi) =
      (errs ++ (inputs.filter (fun p => !p.2.checkValidity)).map
          (fun p => env.handleValidationState p.2.name p.2.validity),
       inputs.foldl (fun o p => objSet o p.1 p.2.validity.valid) vi) := by
  induction inputs generalizing errs vi with
  | nil => simp
  | cons e rest ih =>
    cases hc : e.2.checkValidity <;>
      simp [List.foldl_cons, validateStep, ih, hc, List.filter_cons]

theorem objGet_foldl_of_not_mem (inputs : Inputs) (vi : FlagObject) (k : String)
    (h : k ∉ inputs.map Prod.fst) :
    objGet (inputs.foldl (fun o p => objSet o p.1 p.2.validity.valid) vi) k = objGet vi k := by
  induction inputs generalizing vi with
  | nil => rfl
  | cons e rest ih =>
    have hne : k ≠ e.1 := fun eq => h (by simp [eq])
    have hrest : k ∉ rest.map Prod.fst := fun m => h (by simp at m ⊢; exact Or.inr m)
    simp only [List.foldl_cons]
    rw [ih _ hrest, objGet_objSet_ne _ _ _ _ hne]

theorem objGet_foldl_of_mem (inputs : Inputs) (vi : FlagObject)
    (hkeys : (inputs.map Prod.fst).Nodup) (p : String × InputNode) (hp : p ∈ inputs) :
    objGet (inputs.foldl (fun o q => objSet o q.1 q.2.validity.valid) vi) p.1 =
      some p.2.validity.valid := by
  induction inputs generalizing vi with
  | nil => simp at hp
  | cons e rest ih =>
    simp only [List.map_cons, List.nodup_cons] at hkeys
    simp only [List.foldl_cons]
    rcases List.mem_cons.mp hp with heq | hmem
    · subst heq
      rw [objGet_foldl_of_not_mem _ _ _ hkeys.1, objGet_objSet_same]
    · exact ih _ hkeys.2 hmem

theorem validationErrors_stateAfterValidation {M : Type} (env : Env M) (inputs : Inputs)
    (st : State) :
    (stateAfterValidation env inputs st).validationErrors =
      (inputs.filter (fun p => !p.2.checkValidity)).map
        (fun p => env.handleValidationState p.2.name p.2.validity) := by
  simp [stateAfterValidation, validateInputs, foldl_validateStep]

theorem validInputs_stateAfterValidation {M : Type} (env : Env M) (inputs : Inputs)
    (st : State) :
    (stateAfterValidation env inputs st).validInputs =
      inputs.foldl (fun o p => objSet o p.1 p.2.validity.valid) st.validInputs := by
  simp [stateAfterValidation, validateInputs, foldl_validateStep]

theorem validationErrors_nil_of_all_pass {M : Type} (env : Env M) (inputs : Inputs)
    (st : State) (hvalid : ∀ p ∈ inputs, p.2.checkValidity = true) :
    (stateAfterValidation env inputs st).validationErrors = [] := by
  rw [validationErrors_stateAfterValidation]
  simp only [List.map_eq_nil_iff, List.filter_eq_nil_iff]
  intro p hp
  simp [hvalid p hp]

/-- The validation pass leaves `email`, `password` and `persist` alone, so the
login object is the one built from the state at submission. -/
theorem buildLogin_stateAfterValidation {M : Type} (env : Env M) (inputs : Inputs)
    (st : State) :
    buildLogin (stateAfterValidation env inputs st) = buildLogin st := by
  simp [buildLogin, stateAfterValidation]

/-- A submission that is not ignored and passes validation calls `doLogin`
with the login object and continues according to the way it settles. -/
theorem handleSubmit_of_valid {M : Type} (env : Env M) (props : Props)
    (pending : State → State) (inputs : Inputs) (w : World)
    (hfetch : props.isFetching = false)
    (hvalid : ∀ p ∈ inputs, p.2.checkValidity = true) :
    handleSubmit env props pending inputs w =
      match props.doLogin (buildLogin w.state) with
      | .rejected e =>
        catchHandler env
          { state := pending (stateAfterValidation env inputs w.state),
            doLoginCalls := w.doLoginCalls ++ [buildLogin w.state],
            replaceCalls := w.replaceCalls,
            pushCalls := w.pushCalls,
            preventDefaultCalls := w.preventDefaultCalls + 1 } e
      | .fulfilled =>
        ({ state := pending (stateAfterValidation env inputs w.state),
           doLoginCalls := w.doLoginCalls ++ [buildLogin w.state],
           replaceCalls := w.replaceCalls ++
             [redirectTarget env (pending (stateAfterValidation env inputs w.state))],
           pushCalls := w.pushCalls,
           preventDefaultCalls := w.preventDefaultCalls + 1 }, .resolved) := by
  have herr := validationErrors_nil_of_all_pass env inputs w.state hvalid
  simp only [handleSubmit, hfetch, herr, checkErrors, buildLogin_stateAfterValidation]
  cases props.doLogin (buildLogin w.state) <;> simp

/-- Without an `@` at a positive index the login object carries the handle:
the identifier without its leading `@`. -/
theorem buildLogin_of_no_inner_at (st : State)
    (hno : ∀ i, 0 < i → st.email.data[i]? ≠ some '@') :
    buildLogin st =
      { password := st.password, persist := st.persist, email := none,
        handle := some (stripLeadingAt st.email) } := by
  obtain ⟨email, loginError, password, persist, validInputs, validationErrors⟩ := st
  obtain ⟨data⟩ := email
  simp only at hno
  cases data with
  | nil => simp [buildLogin, indexOf, indexOfFrom, replaceWithEmpty, removeFirst, stripLeadingAt]
  | cons x xs =>
    have hxs : '@' ∉ xs := by
      intro hm
      obtain ⟨i, hi⟩ := List.mem_iff_getElem?.mp hm
      apply hno (i + 1) (Nat.succ_pos i)
      simpa using hi
    by_cases hx : x = '@'
    · simp [buildLogin, indexOf, indexOfFrom, replaceWithEmpty, removeFirst, stripLeadingAt, hx]
    · have hidx := indexOfFrom_of_not_mem '@' xs (0 + 1) hxs
      have hrem := removeFirst_of_not_mem '@' xs hxs
      simp [buildLogin, indexOf, indexOfFrom, replaceWithEmpty, removeFirst, stripLeadingAt,
        hx, hidx, hrem]

/-! ## The claims -/

/-- Claim C1 as stated fails: the identifier `@a@b.com` contains `@` at
index 2, the submission is not ignored and passes validation, yet the one
`doLogin` call carries the handle `a@b.com` and no email field. -/
theorem handleSubmit_leading_at_with_inner_at_sends_handle :
    (∃ i, 0 < i ∧ ("@a@b.com" : String).data[i]? = some '@') ∧
    (sampleProps .fulfilled).isFetching = false ∧
    (∀ p ∈ sampleInputs, p.2.checkValidity = true) ∧
    (handleSubmit sampleEnv (sampleProps .fulfilled) id sampleInputs
        (freshWorld { initialState with email := "@a@b.com", password := "longenough1" })
      ).1.doLoginCalls =
      [{ password := "longenough1", persist := true, email := none,
         handle := some "a@b.com" }] :=
  ⟨⟨2, by decide⟩, rfl, by decide, by decide⟩

/-- Claim C1, amended: when the first `@` of the identifier is at an index
greater than 0 (the identifier contains `@` and does not start with it), a
submission that is not ignored and passes validation calls `doLogin` exactly
once, with the identifier unchanged as `email`, the password and persistence
flag of the state, and no `handle`. -/
theorem handleSubmit_sends_email_when_first_at_positive {M : Type} (env : Env M)
    (props : Props) (pending : State → State) (inputs : Inputs) (w : World)
    (hfetch : props.isFetching = false)
    (hvalid : ∀ p ∈ inputs, p.2.checkValidity = true)
    (hat : '@' ∈ w.state.email.data)
    (hfirst : w.state.email.data.head? ≠ some '@') :
    (handleSubmit env props pending inputs w).1.doLoginCalls =
      w.doLoginCalls ++
        [{ password := w.state.password, persist := w.state.persist,
           email := some w.state.email, handle := none }] := by
  have hpos : 0 < indexOf w.state.email '@' := (indexOf_pos_iff _ _).mpr ⟨hat, hfirst⟩
  have hlogin : buildLogin w.state =
      { password := w.state.password, persist := w.state.persist,
        email := some w.state.email, handle := none } := by
    simp [buildLogin, hpos]
  rw [handleSubmit_of_valid env props pending inputs w hfetch hvalid, hlogin]
  cases props.doLogin _ with
  | fulfilled => rfl
  | rejected e =>
    simp only [catchHandler]
    split <;> rfl

/-- Witness of `handleSubmit_sends_email_when_first_at_positive` at the
identifier `a@b.com`. -/
theorem handleSubmit_sends_email_when_first_at_positive_witness :
    (handleSubmit sampleEnv (sampleProps .fulfilled) id sampleInputs
        (freshWorld { initialState with email := "a@b.com", password := "longenough1" })
      ).1.doLoginCalls =
      (freshWorld { initialState with email := "a@b.com", password := "longenough1" }
        ).doLoginCalls ++
        [{ password := "longenough1", persist := true, email := some "a@b.com",
           handle := none }] :=
  handleSubmit_sends_email_when_first_at_positive sampleEnv (sampleProps .fulfilled) id
    sampleInputs (freshWorld { initialState with email := "a@b.com", password := "longenough1" })
    rfl (by decide) (by decide) (by decide)

/-- Claim C2: when the identifier has no `@` at a positive index, a submission
that is not ignored and passes validation calls `doLogin` exactly once with
the object `{handle, password, persist}`: the handle is the identifier with
its leading `@` removed, which is the identifier itself when it has no `@`;
password and persist are the state values; there is no `email`. -/
theorem handleSubmit_sends_handle_without_inner_at {M : Type} (env : Env M)
    (props : Props) (pending : State → State) (inputs : Inputs) (w : World)
    (hfetch : props.isFetching = false)
    (hvalid : ∀ p ∈ inputs, p.2.checkValidity = true)
    (hno : ∀ i, 0 < i → w.state.email.data[i]? ≠ some '@') :
    (handleSubmit env props pending inputs w).1.doLoginCalls =
      w.doLoginCalls ++
        [{ password := w.state.password, persist := w.state.persist, email := none,
           handle := some (stripLeadingAt w.state.email) }] ∧
    ('@' ∉ w.state.email.data → stripLeadingAt w.state.email = w.state.email) := by
  refine ⟨?_, ?_⟩
  · rw [handleSubmit_of_valid env props pending inputs w hfetch hvalid,
      buildLogin_of_no_inner_at w.state hno]
    cases props.doLogin _ with
    | fulfilled => rfl
    | rejected e =>
      simp only [catchHandler]
      split <;> rfl
  · intro hnone
    unfold stripLeadingAt
    cases hd : w.state.email.data with
    | nil => rfl
    | cons x xs =>
      have hx : x ≠ '@' := fun e => hnone (by simp [hd, e])
      simp [hx]

/-- Witness of `handleSubmit_sends_handle_without_inner_at`: the identifier
`@myhandle` with the default persistence flag gives the handle `myhandle`
and `persist` true. -/
theorem handleSubmit_sends_handle_without_inner_at_witness :
    (handleSubmit sampleEnv (sampleProps .fulfilled) id sampleInputs
        (freshWorld { initialState with email := "@myhandle", password := "longenough1" })
      ).1.doLoginCalls =
      [{ password := "longenough1", persist := true, email := none,
         handle := some "myhandle" }] :=
  (handleSubmit_sends_handle_without_inner_at sampleEnv (sampleProps .fulfilled) id
    sampleInputs
    (freshWorld { initialState with email := "@myhandle", password := "longenough1" })
    rfl (by decide) (by
      intro i hi
      match i, hi with
      | 1, _ | 2, _ | 3, _ | 4, _ | 5, _ | 6, _ | 7, _ | 8, _ => decide
      | (n + 9), _ => simp [initialState, freshWorld])).1

/-- Claim C3: while `isFetching` is true `handleSubmit` does nothing beyond
`event.preventDefault()`: no `doLogin` call, no `window.location.replace`, no
`history.push`, the local state is unchanged, and the handler returns
`undefined`. -/
theorem handleSubmit_ignored_while_fetching {M : Type} (env : Env M) (props : Props)
    (pending : State → State) (inputs : Inputs) (w : World)
    (hfetch : props.isFetching = true) :
    (handleSubmit env props pending inputs w).1.doLoginCalls = w.doLoginCalls ∧
    (handleSubmit env props pending inputs w).1.replaceCalls = w.replaceCalls ∧
    (handleSubmit env props pending inputs w).1.pushCalls = w.pushCalls ∧
    (handleSubmit env props pending inputs w).1.state = w.state ∧
    (handleSubmit env props pending inputs w).2 = .undefined := by
  simp [handleSubmit, hfetch]

/-- Witness of `handleSubmit_ignored_while_fetching`: a submission with a
too short password while a login is in flight. -/
theorem handleSubmit_ignored_while_fetching_witness :
    (handleSubmit sampleEnv { sampleProps .fulfilled with isFetching := true } id
        sampleInputsShortPassword
        (freshWorld { initialState with email := "a@b.com", password := "short" })
      ).1.doLoginCalls = [] ∧
    (handleSubmit sampleEnv { sampleProps .fulfilled with isFetching := true } id
        sampleInputsShortPassword
        (freshWorld { initialState with email := "a@b.com", password := "short" })
      ).1.replaceCalls = [] ∧
    (handleSubmit sampleEnv { sampleProps .fulfilled with isFetching := true } id
        sampleInputsShortPassword
        (freshWorld { initialState with email := "a@b.com", password := "short" })
      ).1.pushCalls = [] ∧
    (handleSubmit sampleEnv { sampleProps .fulfilled with isFetching := true } id
        sampleInputsShortPassword
        (freshWorld { initialState with email := "a@b.com", password := "short" })
      ).1.state = { initialState with email := "a@b.com", password := "short" } ∧
    (handleSubmit sampleEnv { sampleProps .fulfilled with isFetching := true } id
        sampleInputsShortPassword
        (freshWorld { initialState with email := "a@b.com", password := "short" })
      ).2 = .undefined :=
  handleSubmit_ignored_while_fetching sampleEnv
    { sampleProps .fulfilled with isFetching := true } id sampleInputsShortPassword
    (freshWorld { initialState with email := "a@b.com", password := "short" }) rfl

/-- Claim C4: when the submission is not ignored and some managed input fails
its native validity check, `doLogin` is not called, there is no full-page
navigation, the validation error list stored in the state is not empty, and
the first `then` callback throws the first collected error, so that the
chain never reaches the login call: the returned promise rejects with that
error (the `catch` callback resolves it instead, after `history.push`, only
if the descriptor carries the "too many clients" label). -/
theorem handleSubmit_aborts_on_invalid_input {M : Type} (env : Env M) (props : Props)
    (pending : State → State) (inputs : Inputs) (w : World)
    (hfetch : props.isFetching = false)
    (hfail : ∃ p ∈ inputs, p.2.checkValidity = false) :
    (handleSubmit env props pending inputs w).1.doLoginCalls = w.doLoginCalls ∧
    (handleSubmit env props pending inputs w).1.replaceCalls = w.replaceCalls ∧
    (handleSubmit env props pending inputs w).1.state.validationErrors ≠ [] ∧
    (handleSubmit env props pending inputs w).1.state.validationErrors =
      (inputs.filter (fun p => !p.2.checkValidity)).map
        (fun p => env.handleValidationState p.2.name p.2.validity) ∧
    ∃ first rest,
      (handleSubmit env props pending inputs w).1.state.validationErrors = first :: rest ∧
      checkErrors (handleSubmit env props pending inputs w).1.state.validationErrors =
        .error first ∧
      (handleSubmit env props pending inputs w).2 =
        (if first.label = env.TOO_MANY_CLIENTS then .resolved else .rejected first) := by
  have herrs := validationErrors_stateAfterValidation env inputs w.state
  obtain ⟨p, hp, hpf⟩ := hfail
  have hne : (stateAfterValidation env inputs w.state).validationErrors ≠ [] := by
    rw [herrs]
    simp only [ne_eq, List.map_eq_nil_iff, List.filter_eq_nil_iff, not_forall]
    exact ⟨p, hp, by simp [hpf]⟩
  cases hlist : (stateAfterValidation env inputs w.state).validationErrors with
  | nil => exact absurd hlist hne
  | cons first rest =>
    have hrun : handleSubmit env props pending inputs w =
        catchHandler env
          { state := stateAfterValidation env inputs w.state,
            doLoginCalls := w.doLoginCalls,
            replaceCalls := w.replaceCalls,
            pushCalls := w.pushCalls,
            preventDefaultCalls := w.preventDefaultCalls + 1 } first := by
      simp [handleSubmit, hfetch, hlist, checkErrors]
    rw [hrun]
    by_cases hl : first.label = env.TOO_MANY_CLIENTS
    · rw [catchHandler, if_pos hl]
      exact ⟨rfl, rfl, hne, herrs, first, rest, hlist, by simp [hlist, checkErrors],
        (if_pos hl).symm⟩
    · rw [catchHandler, if_neg hl]
      exact ⟨rfl, rfl, hne, herrs, first, rest, hlist, by simp [hlist, checkErrors],
        (if_neg hl).symm⟩

/-- Witness of `handleSubmit_aborts_on_invalid_input`: a too short password. -/
theorem handleSubmit_aborts_on_invalid_input_witness :
    (handleSubmit sampleEnv (sampleProps .fulfilled) id sampleInputsShortPassword
        (freshWorld { initialState with email := "a@b.com", password := "short" })
      ).1.doLoginCalls = [] ∧
    (handleSubmit sampleEnv (sampleProps .fulfilled) id sampleInputsShortPassword
        (freshWorld { initialState with email := "a@b.com", password := "short" })
      ).1.state.validationErrors ≠ [] :=
  have h := handleSubmit_aborts_on_invalid_input sampleEnv (sampleProps .fulfilled) id
    sampleInputsShortPassword
    (freshWorld { initialState with email := "a@b.com", password := "short" })
    rfl ⟨_, List.mem_cons_of_mem _ (List.mem_singleton.mpr rfl), rfl⟩
  ⟨h.1, h.2.2.1⟩

/-- Claim C5: when a valid submission's `doLogin` call fails with an error
carrying the "too many clients" label, `history.push(ROUTE.CLIENTS)` is
called exactly once, `window.location.replace` is not called, and the
returned promise resolves. -/
theorem handleSubmit_too_many_clients_pushes_clients {M : Type} (env : Env M)
    (props : Props) (pending : State → State) (inputs : Inputs) (w : World)
    (error : LabeledError)
    (hfetch : props.isFetching = false)
    (hvalid : ∀ p ∈ inputs, p.2.checkValidity = true)
    (hfails : props.doLogin (buildLogin w.state) = .rejected error)
    (hlabel : error.label = env.TOO_MANY_CLIENTS) :
    (handleSubmit env props pending inputs w).1.pushCalls =
      w.pushCalls ++ [env.ROUTE_CLIENTS] ∧
    (handleSubmit env props pending inputs w).1.replaceCalls = w.replaceCalls ∧
    (handleSubmit env props pending inputs w).1.doLoginCalls =
      w.doLoginCalls ++ [buildLogin w.state] ∧
    (handleSubmit env props pending inputs w).2 = .resolved := by
  rw [handleSubmit_of_valid env props pending inputs w hfetch hvalid, hfails]
  simp [catchHandler, hlabel]

/-- Witness of `handleSubmit_too_many_clients_pushes_clients`. -/
theorem handleSubmit_too_many_clients_pushes_clients_witness :
    (handleSubmit sampleEnv (sampleProps (.rejected ⟨"too-many-clients", "limit"⟩)) id
        sampleInputs
        (freshWorld { initialState with email := "a@b.com", password := "longenough1" })
      ).1.pushCalls = [] ++ ["/clients"] ∧
    (handleSubmit sampleEnv (sampleProps (.rejected ⟨"too-many-clients", "limit"⟩)) id
        sampleInputs
        (freshWorld { initialState with email := "a@b.com", password := "longenough1" })
      ).2 = .resolved :=
  have h := handleSubmit_too_many_clients_pushes_clients sampleEnv
    (sampleProps (.rejected ⟨"too-many-clients", "limit"⟩)) id sampleInputs
    (freshWorld { initialState with email := "a@b.com", password := "longenough1" })
    ⟨"too-many-clients", "limit"⟩ rfl (by decide) rfl rfl
  ⟨h.1, h.2.2.2⟩

/-- Claim C7: when a valid submission's `doLogin` call fails with an error
whose label is not the "too many clients" label, neither `history.push` nor
`window.location.replace` is called and the returned promise rejects with
that same error. -/
theorem handleSubmit_other_error_propagates {M : Type} (env : Env M)
    (props : Props) (pending : State → State) (inputs : Inputs) (w : World)
    (error : LabeledError)
    (hfetch : props.isFetching = false)
    (hvalid : ∀ p ∈ inputs, p.2.checkValidity = true)
    (hfails : props.doLogin (buildLogin w.state) = .rejected error)
    (hlabel : error.label ≠ env.TOO_MANY_CLIENTS) :
    (handleSubmit env props pending inputs w).1.pushCalls = w.pushCalls ∧
    (handleSubmit env props pending inputs w).1.replaceCalls = w.replaceCalls ∧
    (handleSubmit env props pending inputs w).2 = .rejected error := by
  rw [handleSubmit_of_valid env props pending inputs w hfetch hvalid, hfails]
  simp [catchHandler, hlabel]

/-- Witness of `handleSubmit_other_error_propagates`. -/
theorem handleSubmit_other_error_propagates_witness :
    (handleSubmit sampleEnv (sampleProps (.rejected ⟨"invalid-credentials", "denied"⟩)) id
        sampleInputs
        (freshWorld { initialState with email := "a@b.com", password := "longenough1" })
      ).1.pushCalls = [] ∧
    (handleSubmit sampleEnv (sampleProps (.rejected ⟨"invalid-credentials", "denied"⟩)) id
        sampleInputs
        (freshWorld { initialState with email := "a@b.com", password := "longenough1" })
      ).1.replaceCalls = [] ∧
    (handleSubmit sampleEnv (sampleProps (.rejected ⟨"invalid-credentials", "denied"⟩)) id
        sampleInputs
        (freshWorld { initialState with email := "a@b.com", password := "longenough1" })
      ).2 = .rejected ⟨"invalid-credentials", "denied"⟩ :=
  handleSubmit_other_error_propagates sampleEnv
    (sampleProps (.rejected ⟨"invalid-credentials", "denied"⟩)) id sampleInputs
    (freshWorld { initialState with email := "a@b.com", password := "longenough1" })
    ⟨"invalid-credentials", "denied"⟩ rfl (by decide) rfl (by decide)

/-- Claim C8: when a valid submission's `doLogin` call succeeds,
`window.location.replace` is called exactly once, with
`'/' + pathWithParams('login', 'reason=login&persist=' + p)` where `p` is the
persistence flag of the state at that moment: the query text is
`reason=login&persist=true` when the flag is true and
`reason=login&persist=false` when it is false.  `history.push` is not
called, and the promise resolves. -/
theorem handleSubmit_success_replaces_location {M : Type} (env : Env M)
    (props : Props) (pending : State → State) (inputs : Inputs) (w : World)
    (hfetch : props.isFetching = false)
    (hvalid : ∀ p ∈ inputs, p.2.checkValidity = true)
    (hsucceeds : props.doLogin (buildLogin w.state) = .fulfilled) :
    (handleSubmit env props pending inputs w).1.replaceCalls =
      w.replaceCalls ++
        ["/" ++ env.pathWithParams "login"
          (if (handleSubmit env props pending inputs w).1.state.persist = true then
            "reason=login&persist=true"
           else "reason=login&persist=false")] ∧
    (handleSubmit env props pending inputs w).1.state =
      pending (stateAfterValidation env inputs w.state) ∧
    (stateAfterValidation env inputs w.state).persist = w.state.persist ∧
    (handleSubmit env props pending inputs w).1.pushCalls = w.pushCalls ∧
    (handleSubmit env props pending inputs w).2 = .resolved := by
  have htrue : "reason=login&persist=" ++ "true" = "reason=login&persist=true" := by decide
  have hfalse : "reason=login&persist=" ++ "false" = "reason=login&persist=false" := by decide
  rw [handleSubmit_of_valid env props pending inputs w hfetch hvalid, hsucceeds]
  refine ⟨?_, rfl, rfl, rfl, rfl⟩
  simp only [redirectTarget]
  cases (pending (stateAfterValidation env inputs w.state)).persist
  · simp [boolToString, hfalse]
  · simp [boolToString, htrue]

/-- Witness of `handleSubmit_success_replaces_location`, for both values of
the flag: with the default state the redirect carries `persist=true`; when
the "public computer" box is ticked while the login is pending, it carries
the flag read after the login has succeeded, `persist=false`. -/
theorem handleSubmit_success_replaces_location_witness :
    ((handleSubmit sampleEnv (sampleProps .fulfilled) id sampleInputs
        (freshWorld { initialState with email := "a@b.com", password := "longenough1" })
      ).1.replaceCalls = ["/login?reason=login&persist=true"] ∧
     (handleSubmit sampleEnv (sampleProps .fulfilled) id sampleInputs
        (freshWorld { initialState with email := "a@b.com", password := "longenough1" })
      ).1.pushCalls = []) ∧
    ((handleSubmit sampleEnv (sampleProps .fulfilled) (fun st => { st with persist := false })
        sampleInputs
        (freshWorld { initialState with email := "a@b.com", password := "longenough1" })
      ).1.replaceCalls = ["/login?reason=login&persist=false"] ∧
     (handleSubmit sampleEnv (sampleProps .fulfilled) (fun st => { st with persist := false })
        sampleInputs
        (freshWorld { initialState with email := "a@b.com", password := "longenough1" })
      ).1.pushCalls = []) :=
  have hkept := handleSubmit_success_replaces_location sampleEnv (sampleProps .fulfilled) id
    sampleInputs
    (freshWorld { initialState with email := "a@b.com", password := "longenough1" })
    rfl (by decide) rfl
  have hticked := handleSubmit_success_replaces_location sampleEnv (sampleProps .fulfilled)
    (fun st => { st with persist := false }) sampleInputs
    (freshWorld { initialState with email := "a@b.com", password := "longenough1" })
    rfl (by decide) rfl
  ⟨⟨hkept.1.trans (by decide), hkept.2.2.2.1⟩, ⟨hticked.1.trans (by decide), hticked.2.2.2.1⟩⟩

/-- Claim C6 as stated fails: with a store error carrying the "too many
clients" label and the initial state, `render` produces the backend error
message `parseError(loginError)`. -/
theorem render_too_many_clients_shows_backend_message :
    (⟨"too-many-clients", "limit"⟩ : LabeledError).label = sampleEnv.TOO_MANY_CLIENTS ∧
    (render sampleEnv
        { sampleProps .fulfilled with loginError := some ⟨"too-many-clients", "limit"⟩ }
        initialState).errorRegion =
      .backendMessage (sampleEnv.parseError ⟨"too-many-clients", "limit"⟩) :=
  ⟨rfl, by decide⟩

/-- Claim C6, amended: `render` does not look at the label.  With a store
error carrying the "too many clients" label it shows the validation list,
and no backend error message, when the validation error list of the state
is not empty, and the backend error message `parseError(loginError)` when
that list is empty. -/
theorem render_too_many_clients_region {M : Type} (env : Env M) (props : Props) (st : State)
    (error : LabeledError)
    (herror : props.loginError = some error)
    (_hlabel : error.label = env.TOO_MANY_CLIENTS) :
    (render env props st).errorRegion =
      (if st.validationErrors = [] then .backendMessage (env.parseError error)
       else .validationList (env.parseValidationErrors st.validationErrors)) := by
  cases hv : st.validationErrors <;> simp [render, renderErrorRegion, herror, hv]

/-- Witness of `render_too_many_clients_region`, with one validation error
in the state. -/
theorem render_too_many_clients_region_witness :
    (render sampleEnv
        { sampleProps .fulfilled with loginError := some ⟨"too-many-clients", "limit"⟩ }
        { initialState with validationErrors := [⟨"password-invalid", ""⟩] }).errorRegion =
      .validationList "password-invalid" :=
  (render_too_many_clients_region sampleEnv
    { sampleProps .fulfilled with loginError := some ⟨"too-many-clients", "limit"⟩ }
    { initialState with validationErrors := [⟨"password-invalid", ""⟩] }
    ⟨"too-many-clients", "limit"⟩ rfl rfl).trans (by decide)

/-- Claim C9: the error part of `render` is exactly one of three regions: the
formatted validation list when the validation error list of the state is
not empty, whatever the store error; otherwise the backend error message
`parseError(loginError)` when the store has a login error; otherwise
nothing.  A backend error message is shown if and only if the validation
error list is empty and a store error exists. -/
theorem render_error_region_cases {M : Type} (env : Env M) (props : Props) (st : State) :
    (st.validationErrors ≠ [] →
      (render env props st).errorRegion =
        .validationList (env.parseValidationErrors st.validationErrors)) ∧
    (∀ error, st.validationErrors = [] → props.loginError = some error →
      (render env props st).errorRegion = .backendMessage (env.parseError error)) ∧
    (st.validationErrors = [] → props.loginError = none →
      (render env props st).errorRegion = .nothing) ∧
    ((∃ content, (render env props st).errorRegion = .backendMessage content) ↔
      st.validationErrors = [] ∧ props.loginError ≠ none) := by
  cases hv : st.validationErrors with
  | nil =>
    cases he : props.loginError with
    | none => simp [render, renderErrorRegion, hv, he]
    | some error => simp [render, renderErrorRegion, hv, he]
  | cons first rest => simp [render, renderErrorRegion, hv]

/-- Claim C10: after a submission that is not ignored the state reflects the
validation pass.  In the state installed by `setState`, the flag of every
managed input is its `validity.valid` (so a failing input is marked invalid
and a passing one valid wherever `checkValidity()` agrees with
`validity.valid`), and the validation error list is the list of descriptors
`handleValidationState(name, validity)` of the inputs failing
`checkValidity()`, in input order, whatever the list was before; it is empty
when all inputs pass.  That state is the state after the submission, up to
what other handlers do while a login call is pending. -/
theorem handleSubmit_state_reflects_validation {M : Type} (env : Env M) (props : Props)
    (pending : State → State) (inputs : Inputs) (w : World)
    (hfetch : props.isFetching = false)
    (hkeys : (inputs.map Prod.fst).Nodup) :
    (∀ p ∈ inputs,
      objGet (stateAfterValidation env inputs w.state).validInputs p.1 =
        some p.2.validity.valid) ∧
    (∀ p ∈ inputs, p.2.checkValidity = p.2.validity.valid →
      objGet (stateAfterValidation env inputs w.state).validInputs p.1 =
        some p.2.checkValidity) ∧
    (stateAfterValidation env inputs w.state).validationErrors =
      (inputs.filter (fun p => !p.2.checkValidity)).map
        (fun p => env.handleValidationState p.2.name p.2.validity) ∧
    ((∀ p ∈ inputs, p.2.checkValidity = true) →
      (stateAfterValidation env inputs w.state).validationErrors = []) ∧
    (handleSubmit env props pending inputs w).1.state =
      (if (stateAfterValidation env inputs w.state).validationErrors = [] then
        pending (stateAfterValidation env inputs w.state)
       else stateAfterValidation env inputs w.state) := by
  have hflags : ∀ p ∈ inputs,
      objGet (stateAfterValidation env inputs w.state).validInputs p.1 =
        some p.2.validity.valid := by
    intro p hp
    rw [validInputs_stateAfterValidation]
    exact objGet_foldl_of_mem inputs w.state.validInputs hkeys p hp
  refine ⟨hflags, ?_, validationErrors_stateAfterValidation env inputs w.state,
    validationErrors_nil_of_all_pass env inputs w.state, ?_⟩
  · intro p hp hagree
    rw [hflags p hp, hagree]
  · cases hlist : (stateAfterValidation env inputs w.state).validationErrors with
    | nil =>
      simp only [handleSubmit, hfetch, hlist, checkErrors]
      cases props.doLogin _ with
      | fulfilled => simp
      | rejected e =>
        by_cases hl : e.label = env.TOO_MANY_CLIENTS <;> simp [catchHandler, hl]
    | cons first rest =>
      simp only [handleSubmit, hfetch, hlist, checkErrors]
      by_cases hl : first.label = env.TOO_MANY_CLIENTS <;> simp [catchHandler, hl]

/-- Witness of `handleSubmit_state_reflects_validation`: a too short
password after an earlier error list. -/
theorem handleSubmit_state_reflects_validation_witness :
    (handleSubmit sampleEnv (sampleProps .fulfilled) id sampleInputsShortPassword
        (freshWorld { initialState with
          email := "a@b.com", password := "short",
          validationErrors := [⟨"email-value-missing", ""⟩] })).1.state =
      { initialState with
        email := "a@b.com", password := "short",
        validInputs := [("email", true), ("password", false)],
        validationErrors := [⟨"password-invalid", ""⟩] } :=
  (handleSubmit_state_reflects_validation sampleEnv (sampleProps .fulfilled) id
    sampleInputsShortPassword
    (freshWorld { initialState with
      email := "a@b.com", password := "short",
      validationErrors := [⟨"email-value-missing", ""⟩] })
    rfl (by decide)).2.2.2.2.trans (by decide)

end Login
